import Mathlib

/-!
A shallow embedding of the PCAP analyzer service (`server/app.py`) and proofs
about its classification, aggregation, ranking, alerting and serialization
logic.

Modelling conventions:
* A decoded scapy packet is modelled by `Packet`: its capture timestamp
  (integer seconds since epoch), total byte length, the boolean layer
  membership queries used by the code (`haslayer` for TCP, UDP, ICMP, DNS,
  IPv6, IP), and the address strings of its IP/IPv6 layers.
* Python `dict` / `Counter` / `defaultdict` values preserve insertion order,
  so they are modelled as association lists; `dictUpd` models
  `d[k] = f(d.get(k, v0))` (updating in place, appending new keys).
* Python's `sorted(items, key=f, reverse=True)` is a stable descending sort;
  it is modelled by `List.insertionSort` with the relation `byKeyGE f`,
  which is sorted for that relation and stable, hence extensionally equal
  to any stable descending sort.
* Python truthiness on `str | None` values (`if src:`, `src or "unknown"`)
  is modelled explicitly: `None` and the empty string are falsy.
* Exact rational arithmetic stands in for Python float division in the
  alert thresholds.
-/

/-- A decoded packet as observed by the analyzer: timestamp (`pkt.time`,
seconds since epoch, modelled as an integer), byte length (`len(pkt)`),
the `haslayer` queries the code performs, and the `src`/`dst` address
strings of the IP (IPv4) and IPv6 layers. -/
structure Packet where
  time : Int
  len : Nat
  hasTCP : Bool
  hasUDP : Bool
  hasICMP : Bool
  hasDNS : Bool
  hasIPv6 : Bool
  hasIP : Bool
  ipSrc : String
  ipDst : String
  ipv6Src : String
  ipv6Dst : String
deriving DecidableEq, Repr

/-- Well-formedness of a decoded packet: scapy renders layer addresses as
non-empty strings (dotted quads / colon-separated groups), so the address
fields are never the empty string. -/
def Packet.wf (p : Packet) : Prop :=
  p.ipSrc ≠ "" ∧ p.ipDst ≠ "" ∧ p.ipv6Src ≠ "" ∧ p.ipv6Dst ≠ ""

/-- `_packet_src_dst`: IPv4 `(src, dst)` if the packet has an IP layer,
else the IPv6 pair, else `(None, None)`. -/
def packet_src_dst (p : Packet) : Option String × Option String :=
  if p.hasIP then (some p.ipSrc, some p.ipDst)
  else if p.hasIPv6 then (some p.ipv6Src, some p.ipv6Dst)
  else (none, none)

/-- `_protocol_tags`: append a tag for each matching layer, in the fixed
order TCP, UDP, ICMP, DNS, IPv6, IPv4; an empty list is replaced by
`["Other"]` (Python `tags or ["Other"]`). -/
def protocol_tags (p : Packet) : List String :=
  let tags : List String := []
  let tags := if p.hasTCP then tags ++ ["TCP"] else tags
  let tags := if p.hasUDP then tags ++ ["UDP"] else tags
  let tags := if p.hasICMP then tags ++ ["ICMP"] else tags
  let tags := if p.hasDNS then tags ++ ["DNS"] else tags
  let tags := if p.hasIPv6 then tags ++ ["IPv6"] else tags
  let tags := if p.hasIP then tags ++ ["IPv4"] else tags
  if tags = [] then ["Other"] else tags

/-- Python truthiness of a `str | None` value: `None` and `""` are falsy. -/
def strTruthy : Option String → Bool
  | none => false
  | some s => decide (s ≠ "")

/-- `x or "unknown"` on a `str | None` value. -/
def orUnknown : Option String → String
  | none => "unknown"
  | some s => if s = "" then "unknown" else s

/-- `d[k] = f(d.get(k, v0))` on an insertion-ordered dictionary: update the
existing entry in place, or append `(k, f v0)` at the end. Models the
mutation pattern of `Counter` / `defaultdict` in the source. -/
def dictUpd {K V : Type} [DecidableEq K] (k : K) (f : V → V) (v0 : V) :
    List (K × V) → List (K × V)
  | [] => [(k, f v0)]
  | kv :: rest => if kv.1 = k then (kv.1, f kv.2) :: rest else kv :: dictUpd k f v0 rest

/-- `d.get(k, dflt)` on an association list. -/
def lookupD {K V : Type} [DecidableEq K] (l : List (K × V)) (k : K) (dflt : V) : V :=
  match l with
  | [] => dflt
  | kv :: rest => if kv.1 = k then kv.2 else lookupD rest k dflt

/-- Per-flow counters (`{"packets": 0, "bytes": 0}` entries of the flow
`defaultdict`). -/
structure FlowStats where
  packets : Nat
  bytes : Nat
deriving DecidableEq, Repr

/-- Flow-table key: `(src or "unknown", dst or "unknown", proto)`. -/
abbrev FlowKey := String × String × String

/-- The transport label used for flow keying:
`"TCP" if pkt.haslayer(TCP) else "UDP" if pkt.haslayer(UDP) else "Other"`. -/
def transportLabel (p : Packet) : String :=
  if p.hasTCP then "TCP" else if p.hasUDP then "UDP" else "Other"

/-- The flow key computed for a packet inside the aggregation loop. -/
def flowKeyOf (p : Packet) : FlowKey :=
  let sd := packet_src_dst p
  (orUnknown sd.1, orUnknown sd.2, transportLabel p)

/-- The mutable state of the aggregation loop: protocol-tag counter,
per-source byte totals, the set of hosts seen, and the flow table. -/
structure AggState where
  protocol_counts : List (String × Nat)
  talkers : List (String × Nat)
  unique_hosts : Finset String
  flows : List (FlowKey × FlowStats)
deriving DecidableEq

/-- The body of the `for pkt in packets` loop in `parse_pcap`. -/
def stepPkt (s : AggState) (p : Packet) : AggState :=
  let protocol_counts :=
    (protocol_tags p).foldl (fun c tag => dictUpd tag (· + 1) 0 c) s.protocol_counts
  let sd := packet_src_dst p
  let talkers :=
    if strTruthy sd.1 then dictUpd (orUnknown sd.1) (· + p.len) 0 s.talkers else s.talkers
  let hosts :=
    if strTruthy sd.1 then insert (orUnknown sd.1) s.unique_hosts else s.unique_hosts
  let hosts :=
    if strTruthy sd.2 then insert (orUnknown sd.2) hosts else hosts
  let flows :=
    dictUpd (flowKeyOf p) (fun st => ⟨st.packets + 1, st.bytes + p.len⟩) ⟨0, 0⟩ s.flows
  ⟨protocol_counts, talkers, hosts, flows⟩

/-- The empty aggregation state created before the loop. -/
def initAgg : AggState := ⟨[], [], ∅, []⟩

/-- The full aggregation pass: a single forward fold over capture order. -/
def aggregate (l : List Packet) : AggState := l.foldl stepPkt initAgg

/-- Descending comparison by a numeric key: `a` may precede `b` when
`f b ≤ f a`. `sorted(key=f, reverse=True)` sorts by this total preorder,
stably. -/
def byKeyGE {α : Type} (f : α → Nat) (a b : α) : Prop := f b ≤ f a

instance {α : Type} (f : α → Nat) : DecidableRel (byKeyGE f) :=
  fun a b => inferInstanceAs (Decidable (f b ≤ f a))

instance {α : Type} (f : α → Nat) : IsTotal α (byKeyGE f) :=
  ⟨fun a b => (Nat.le_total (f a) (f b)).symm⟩

instance {α : Type} (f : α → Nat) : IsTrans α (byKeyGE f) :=
  ⟨fun _ _ _ h1 h2 => Nat.le_trans h2 h1⟩

/-- Python's `sorted(l, key=f, reverse=True)`: a stable descending sort. -/
def sortedByDesc {α : Type} (f : α → Nat) (l : List α) : List α :=
  l.insertionSort (byKeyGE f)

/-- `sorted(talkers.items(), key=lambda item: item[1], reverse=True)[:12]`. -/
def top_talkers (talkers : List (String × Nat)) : List (String × Nat) :=
  (sortedByDesc (fun kv => kv.2) talkers).take 12

/-- `sorted(flows.items(), key=lambda item: item[1]["bytes"], reverse=True)[:12]`. -/
def top_flows (flows : List (FlowKey × FlowStats)) : List (FlowKey × FlowStats) :=
  (sortedByDesc (fun kv => kv.2.bytes) flows).take 12

/-- `Counter.most_common()`: all entries, stably sorted by descending count. -/
def most_common (c : List (String × Nat)) : List (String × Nat) :=
  sortedByDesc (fun kv => kv.2) c

/-- `max(talkers.values())` (Python `max` of a non-empty collection;
the call site guards `if talkers:`). -/
def maxVals (l : List (String × Nat)) : Nat :=
  (l.map Prod.snd).foldl max 0

/-- `sum(talkers.values())`. -/
def sumVals (l : List (String × Nat)) : Nat :=
  (l.map Prod.snd).sum

/-- The strict comparison `a / b > num / den` of the ratio of two counters
against a fixed threshold, in exact arithmetic, written cross-multiplied so
it stays in `Nat` (the call sites guard `b ≠ 0`, and `den > 0` always).
Models the source's float comparisons `dns_count / packet_count > 0.35` and
`top / total > 0.6`; for the counter magnitudes a capture can produce the
float comparison agrees with the exact one. -/
def ratioGT (a b num den : Nat) : Prop := den * a > num * b

instance (a b num den : Nat) : Decidable (ratioGT a b num den) :=
  inferInstanceAs (Decidable (den * a > num * b))

/-- The third alert rule (`if talkers: ... if total and top / total > 0.6`),
appending its message to the alerts accumulated so far. -/
def dominantAlert (talkers : List (String × Nat)) (alerts : List String) : List String :=
  if talkers ≠ [] then
    let top := maxVals talkers
    let total := sumVals talkers
    if total ≠ 0 ∧ ratioGT top total 6 10 then
      alerts ++ ["Single host dominates traffic volume."]
    else alerts
  else alerts

/-- `_alert_rules`: the three fixed threshold rules, evaluated in
declaration order, each appending its message when its condition holds. -/
def alert_rules (packet_count : Nat) (protocol_counts : List (String × Nat))
    (talkers : List (String × Nat)) : List String :=
  let alerts : List String := []
  let alerts :=
    if packet_count > 100000 then alerts ++ ["Large capture: more than 100k packets."]
    else alerts
  let dns_count := lookupD protocol_counts "DNS" 0
  let alerts :=
    if packet_count ≠ 0 ∧ ratioGT dns_count packet_count 35 100 then
      alerts ++ ["High DNS volume relative to total traffic."]
    else alerts
  dominantAlert talkers alerts

/-- Civil-calendar date for a day count relative to 1970-01-01 (proleptic
Gregorian), as computed by `datetime.fromtimestamp(_, timezone.utc)`. -/
def civilFromDays (z0 : Int) : Int × Int × Int :=
  let z := z0 + 719468
  let era : Int := z.fdiv 146097
  let doe : Int := z - era * 146097
  let yoe : Int := (doe - doe.fdiv 1460 + doe.fdiv 36524 - doe.fdiv 146096).fdiv 365
  let y : Int := yoe + era * 400
  let doy : Int := doe - (365 * yoe + yoe.fdiv 4 - yoe.fdiv 100)
  let mp : Int := (5 * doy + 2).fdiv 153
  let d : Int := doy - (153 * mp + 2).fdiv 5 + 1
  let m : Int := if mp < 10 then mp + 3 else mp - 9
  (if m ≤ 2 then y + 1 else y, m, d)

/-- Zero-pad a number to two digits. -/
def pad2 (n : Int) : String :=
  let s := toString n.toNat
  if s.length < 2 then "0" ++ s else s

/-- Zero-pad a number to four digits (year field of `isoformat`). -/
def pad4 (n : Int) : String :=
  let s := toString n.toNat
  if s.length ≥ 4 then s
  else String.mk (List.replicate (4 - s.length) '0') ++ s

/-- `datetime.fromtimestamp(ts, timezone.utc).isoformat()` for an
integer-second timestamp: the UTC ISO-8601 rendering
`YYYY-MM-DDTHH:MM:SS+00:00`. -/
def isoTimeStr (ts : Int) : String :=
  let days := ts.fdiv 86400
  let rem := (ts - days * 86400).toNat
  let ymd := civilFromDays days
  pad4 ymd.1 ++ "-" ++ pad2 ymd.2.1 ++ "-" ++ pad2 ymd.2.2 ++ "T" ++
    pad2 (rem / 3600) ++ ":" ++ pad2 (rem % 3600 / 60) ++ ":" ++ pad2 (rem % 60) ++
    "+00:00"

/-- `_iso_time`: `None` for `None`, otherwise the UTC ISO-8601 rendering of
the timestamp. -/
def iso_time (t : Option Int) : Option String :=
  match t with
  | none => none
  | some ts => some (isoTimeStr ts)

/-- One entry of the serialized `flows` list. -/
structure FlowItem where
  src : String
  dst : String
  protocol : String
  bytes : Nat
  packets : Nat
deriving DecidableEq, Repr

/-- The serialized `summary` object of the response. -/
structure Summary where
  capture_start : Option String
  capture_end : Option String
  packet_count : Nat
  total_bytes : Nat
  unique_hosts : Nat
  protocols : List (String × Nat)
  top_talkers : List (String × Nat)
  alerts : List String
deriving DecidableEq

/-- The serialized response: `{"summary": ..., "flows": ...}`. -/
structure Report where
  summary : Summary
  flows : List FlowItem
deriving DecidableEq

/-- The body of `parse_pcap` after decoding: counters, capture bounds,
the aggregation loop, ranking, summary assembly and alert evaluation. -/
def buildReport (packets : List Packet) : Report :=
  let packet_count := packets.length
  let total_bytes := (packets.map Packet.len).sum
  let capture_start := iso_time (packets.head?.map Packet.time)
  let capture_end := iso_time (packets.getLast?.map Packet.time)
  let st := aggregate packets
  let tt := top_talkers st.talkers
  let flow_items := (top_flows st.flows).map
    (fun kv => FlowItem.mk kv.1.1 kv.1.2.1 kv.1.2.2 kv.2.bytes kv.2.packets)
  let alerts := alert_rules packet_count st.protocol_counts st.talkers
  ⟨⟨capture_start, capture_end, packet_count, total_bytes, st.unique_hosts.card,
    most_common st.protocol_counts, tt, alerts⟩, flow_items⟩

/-- The `/api/pcap/parse` handler at the decoder boundary: `rdpcap` either
returns the decoded packet sequence or raises, and a raised decode error
propagates out of the handler as an error response instead of a report. -/
def parse_pcap (decoded : Except String (List Packet)) : Except String Report :=
  match decoded with
  | .error e => .error e
  | .ok packets => .ok (buildReport packets)

/-- The fixed tag order tested by the classifier. -/
def tagOrder : List String := ["TCP", "UDP", "ICMP", "DNS", "IPv6", "IPv4"]

/-- Layer membership looked up by tag name. -/
def layerHas (p : Packet) : String → Bool
  | "TCP" => p.hasTCP
  | "UDP" => p.hasUDP
  | "ICMP" => p.hasICMP
  | "DNS" => p.hasDNS
  | "IPv6" => p.hasIPv6
  | "IPv4" => p.hasIP
  | _ => false

/-- Total packet count recorded in the flow table. -/
def sumFlowPackets (flows : List (FlowKey × FlowStats)) : Nat :=
  (flows.map (fun kv => kv.2.packets)).sum

/-- Total byte count recorded in the flow table. -/
def sumFlowBytes (flows : List (FlowKey × FlowStats)) : Nat :=
  (flows.map (fun kv => kv.2.bytes)).sum

/-- A concrete TCP/IPv4 packet, 60 bytes, timestamp 100. -/
def pktLate : Packet :=
  ⟨100, 60, true, false, false, false, false, true, "10.0.0.1", "10.0.0.2", "fe80::1", "fe80::2"⟩

/-- A concrete TCP/IPv4 packet, 40 bytes, timestamp 50: placed after
`pktLate` it makes an out-of-order capture. -/
def pktEarly : Packet :=
  ⟨50, 40, true, false, false, false, false, true, "10.0.0.2", "10.0.0.1", "fe80::2", "fe80::1"⟩

/-- A concrete packet with no recognized layer at all. -/
def pktOther : Packet :=
  ⟨7, 33, false, false, false, false, false, false, "10.0.0.1", "10.0.0.2", "fe80::1", "fe80::2"⟩

/-- A concrete packet carrying both an IPv4 and an IPv6 layer. -/
def pktDual : Packet :=
  ⟨9, 80, false, true, false, false, true, true, "10.0.0.3", "10.0.0.4", "fe80::3", "fe80::4"⟩

/-- A concrete 70-byte TCP/IPv4 packet from host 10.0.0.5. -/
def pktEq1 : Packet :=
  ⟨1, 70, true, false, false, false, false, true, "10.0.0.5", "10.0.0.6", "fe80::5", "fe80::6"⟩

/-- A concrete 70-byte TCP/IPv4 packet from host 10.0.0.7: together with
`pktEq1` it creates a byte-total tie between two talkers. -/
def pktEq2 : Packet :=
  ⟨2, 70, true, false, false, false, false, true, "10.0.0.7", "10.0.0.8", "fe80::7", "fe80::8"⟩

/-! ## Dictionary lemmas -/

theorem lookupD_dictUpd_self {K V : Type} [DecidableEq K] (k : K) (f : V → V) (v0 d : V)
    (l : List (K × V)) : lookupD (dictUpd k f v0 l) k d = f (lookupD l k v0) := by
  induction l with
  | nil => simp [dictUpd, lookupD]
  | cons kv rest ih =>
    by_cases h : kv.1 = k
    · simp [dictUpd, lookupD, h]
    · simp [dictUpd, lookupD, h, ih]

theorem lookupD_dictUpd_ne {K V : Type} [DecidableEq K] {k k' : K} (h : k' ≠ k) (f : V → V)
    (v0 d : V) (l : List (K × V)) :
    lookupD (dictUpd k f v0 l) k' d = lookupD l k' d := by
  induction l with
  | nil => simp [dictUpd, lookupD, Ne.symm h]
  | cons kv rest ih =>
    by_cases hk : kv.1 = k
    · subst hk
      simp [dictUpd, lookupD, Ne.symm h]
    · by_cases hk' : kv.1 = k'
      · simp [dictUpd, lookupD, hk, hk', h]
      · simp [dictUpd, lookupD, hk, hk', ih]

/-! ## Alert evaluator lemmas -/

/-- `_alert_rules` written as the concatenation of its three independent
rules, in declaration order. -/
theorem alert_rules_eq (pc : Nat) (counts talkers : List (String × Nat)) :
    alert_rules pc counts talkers =
      (if 100000 < pc then ["Large capture: more than 100k packets."] else []) ++
      ((if pc ≠ 0 ∧ ratioGT (lookupD counts "DNS" 0) pc 35 100 then
        ["High DNS volume relative to total traffic."] else []) ++
      (if talkers ≠ [] ∧ sumVals talkers ≠ 0 ∧
          ratioGT (maxVals talkers) (sumVals talkers) 6 10 then
        ["Single host dominates traffic volume."] else [])) := by
  by_cases h1 : 100000 < pc <;>
    by_cases h2 : pc ≠ 0 ∧ ratioGT (lookupD counts "DNS" 0) pc 35 100 <;>
    by_cases h3 : talkers ≠ [] <;>
    by_cases h4 : sumVals talkers ≠ 0 ∧ ratioGT (maxVals talkers) (sumVals talkers) 6 10 <;>
    simp [alert_rules, dominantAlert, h1, h2, h3, h4]

/-- C6 -- Alert rule 1 ("Large capture: more than 100k packets.") is in the
alert list iff `packet_count > 100000`; at the boundary 100000 it is absent,
at 100001 it is present. -/
theorem alert_rule1_iff (pc : Nat) (counts talkers : List (String × Nat)) :
    ("Large capture: more than 100k packets." ∈ alert_rules pc counts talkers ↔ 100000 < pc) ∧
    "Large capture: more than 100k packets." ∉ alert_rules 100000 counts talkers ∧
    "Large capture: more than 100k packets." ∈ alert_rules 100001 counts talkers := by
  have h1 : ("Large capture: more than 100k packets." : String) ≠
      "High DNS volume relative to total traffic." := by decide
  have h2 : ("Large capture: more than 100k packets." : String) ≠
      "Single host dominates traffic volume." := by decide
  refine ⟨?_, ?_, ?_⟩
  · rw [alert_rules_eq]
    split_ifs <;> simp_all
  · rw [alert_rules_eq]
    split_ifs <;> simp_all
  · rw [alert_rules_eq]
    split_ifs <;> simp_all

/-- C7 -- The alert evaluator is total: the DNS-ratio rule cannot fire when
`packet_count = 0`, the dominant-talker rule cannot fire when the talker
table is empty or its byte sum is zero, and when no rule's condition holds
the evaluator returns the empty list (it never fails; the zero-denominator
divisions are unreachable because of the guards). -/
theorem alert_rules_total_guards (pc : Nat) (counts talkers : List (String × Nat)) :
    (pc = 0 → "High DNS volume relative to total traffic." ∉ alert_rules pc counts talkers) ∧
    (talkers = [] ∨ sumVals talkers = 0 →
      "Single host dominates traffic volume." ∉ alert_rules pc counts talkers) ∧
    (¬ 100000 < pc →
      ¬ (pc ≠ 0 ∧ ratioGT (lookupD counts "DNS" 0) pc 35 100) →
      ¬ (talkers ≠ [] ∧ sumVals talkers ≠ 0 ∧
         ratioGT (maxVals talkers) (sumVals talkers) 6 10) →
      alert_rules pc counts talkers = []) := by
  have hA : ("High DNS volume relative to total traffic." : String) ≠
      "Large capture: more than 100k packets." := by decide
  have hB : ("High DNS volume relative to total traffic." : String) ≠
      "Single host dominates traffic volume." := by decide
  have hC : ("Single host dominates traffic volume." : String) ≠
      "Large capture: more than 100k packets." := by decide
  have hD : ("Single host dominates traffic volume." : String) ≠
      "High DNS volume relative to total traffic." := by decide
  refine ⟨?_, ?_, ?_⟩
  · intro h0
    rw [alert_rules_eq]
    split_ifs <;> simp_all
  · intro h0
    rw [alert_rules_eq]
    rcases h0 with h0 | h0 <;> split_ifs <;> simp_all
  · intro h1 h2 h3
    rw [alert_rules_eq]
    simp [h1, h2, h3]

/-- C7 witness: at the empty aggregate state no guarded rule fires and the
evaluator returns the empty list. -/
theorem alert_rules_total_guards_witness :
    "High DNS volume relative to total traffic." ∉ alert_rules 0 [] [] ∧
    "Single host dominates traffic volume." ∉ alert_rules 0 [] [] ∧
    alert_rules 0 [] [] = [] := by
  obtain ⟨g1, g2, g3⟩ := alert_rules_total_guards 0 [] []
  exact ⟨g1 rfl, g2 (Or.inl rfl), g3 (by decide) (by decide) (by decide)⟩

/-- C6 witness: the rule-1 equivalence and both boundary facts at
`packet_count = 100001` / `100000` with empty counters. -/
theorem alert_rule1_iff_witness :
    ("Large capture: more than 100k packets." ∈ alert_rules 100001 [] [] ↔ 100000 < 100001) ∧
    "Large capture: more than 100k packets." ∉ alert_rules 100000 [] [] ∧
    "Large capture: more than 100k packets." ∈ alert_rules 100001 [] [] :=
  alert_rule1_iff 100001 [] []

/-- C8 -- A decode failure at the `rdpcap` boundary propagates out of the
handler as an error result, never as a report; a successfully decoded
capture (even an empty one) yields a report, so the two are distinguishable
by the result's constructor. -/
theorem decode_failure_surfaced :
    (∀ e : String, parse_pcap (Except.error e) = Except.error e) ∧
    (∀ packets : List Packet, parse_pcap (Except.ok packets) = Except.ok (buildReport packets)) ∧
    (∀ (e : String) (r : Report), parse_pcap (Except.error e) ≠ Except.ok r) := by
  refine ⟨fun _ => rfl, fun _ => rfl, fun e r h => ?_⟩
  simp [parse_pcap] at h

/-- C8 witness: a concrete decode error is surfaced as an error result,
distinct from the report of a valid zero-packet capture. -/
theorem decode_failure_surfaced_witness :
    parse_pcap (Except.error "not a pcap") = Except.error "not a pcap" ∧
    parse_pcap (Except.ok []) = Except.ok (buildReport []) ∧
    parse_pcap (Except.error "not a pcap") ≠ Except.ok (buildReport []) :=
  ⟨decode_failure_surfaced.1 "not a pcap", decode_failure_surfaced.2.1 [],
    decode_failure_surfaced.2.2 "not a pcap" (buildReport [])⟩

/-- C5 -- Endpoint derivation precedence: the IPv4 pair if an IPv4 layer is
present (also when an IPv6 layer is present as well), else the IPv6 pair,
else both endpoints absent. -/
theorem packet_src_dst_precedence (p : Packet) :
    (p.hasIP = true → packet_src_dst p = (some p.ipSrc, some p.ipDst)) ∧
    (p.hasIP = false → p.hasIPv6 = true →
      packet_src_dst p = (some p.ipv6Src, some p.ipv6Dst)) ∧
    (p.hasIP = false → p.hasIPv6 = false → packet_src_dst p = (none, none)) ∧
    (p.hasIP = true → p.hasIPv6 = true →
      packet_src_dst p = (some p.ipSrc, some p.ipDst)) := by
  refine ⟨fun h => by simp [packet_src_dst, h],
    fun h h6 => by simp [packet_src_dst, h, h6],
    fun h h6 => by simp [packet_src_dst, h, h6],
    fun h _ => by simp [packet_src_dst, h]⟩

/-- C5 witness: a dual-stack packet yields its IPv4 pair, a packet with
neither network layer yields absent endpoints. -/
theorem packet_src_dst_precedence_witness :
    packet_src_dst pktDual = (some "10.0.0.3", some "10.0.0.4") ∧
    packet_src_dst pktOther = (none, none) :=
  ⟨(packet_src_dst_precedence pktDual).2.2.2 rfl rfl,
    (packet_src_dst_precedence pktOther).2.2.1 rfl rfl⟩

/-- C2 -- The tag set is never empty; it is exactly `["Other"]` iff none of
the six layers is present; and when at least one is present it consists of
exactly the present layers, in the fixed order TCP, UDP, ICMP, DNS, IPv6,
IPv4. -/
theorem protocol_tags_spec (p : Packet) :
    protocol_tags p ≠ [] ∧
    (protocol_tags p = ["Other"] ↔
      (p.hasTCP = false ∧ p.hasUDP = false ∧ p.hasICMP = false ∧ p.hasDNS = false ∧
       p.hasIPv6 = false ∧ p.hasIP = false)) ∧
    ((p.hasTCP = true ∨ p.hasUDP = true ∨ p.hasICMP = true ∨ p.hasDNS = true ∨
      p.hasIPv6 = true ∨ p.hasIP = true) →
      protocol_tags p = tagOrder.filter (layerHas p)) := by
  obtain ⟨tm, ln, a, b, c, d, e, f, s1, s2, s3, s4⟩ := p
  cases a <;> cases b <;> cases c <;> cases d <;> cases e <;> cases f <;>
    simp [protocol_tags, tagOrder, layerHas]

/-- C2 witness: a packet with no recognized layer is tagged `["Other"]`,
and a dual-stack UDP packet gets exactly its present layers in fixed
order. -/
theorem protocol_tags_spec_witness :
    protocol_tags pktOther = ["Other"] ∧
    protocol_tags pktDual = tagOrder.filter (layerHas pktDual) :=
  ⟨(protocol_tags_spec pktOther).2.1.mpr (by decide),
    (protocol_tags_spec pktDual).2.2 (Or.inr (Or.inl rfl))⟩

/-! ## Aggregation step lemmas -/

theorem stepPkt_flows (s : AggState) (p : Packet) :
    (stepPkt s p).flows =
      dictUpd (flowKeyOf p) (fun st => ⟨st.packets + 1, st.bytes + p.len⟩) ⟨0, 0⟩ s.flows := rfl

theorem stepPkt_protocol_counts (s : AggState) (p : Packet) :
    (stepPkt s p).protocol_counts =
      (protocol_tags p).foldl (fun c tag => dictUpd tag (· + 1) 0 c) s.protocol_counts := rfl

theorem stepPkt_talkers (s : AggState) (p : Packet) :
    (stepPkt s p).talkers =
      if strTruthy (packet_src_dst p).1 then
        dictUpd (orUnknown (packet_src_dst p).1) (· + p.len) 0 s.talkers
      else s.talkers := rfl

theorem stepPkt_unique_hosts (s : AggState) (p : Packet) :
    (stepPkt s p).unique_hosts =
      (if strTruthy (packet_src_dst p).2 then
        insert (orUnknown (packet_src_dst p).2)
          (if strTruthy (packet_src_dst p).1 then
            insert (orUnknown (packet_src_dst p).1) s.unique_hosts
          else s.unique_hosts)
      else
        if strTruthy (packet_src_dst p).1 then
          insert (orUnknown (packet_src_dst p).1) s.unique_hosts
        else s.unique_hosts) := rfl

theorem aggregate_append_one (l : List Packet) (p : Packet) :
    aggregate (l ++ [p]) = stepPkt (aggregate l) p := by
  simp [aggregate, List.foldl_append]

theorem sumFlowPackets_dictUpd (k : FlowKey) (n : Nat) (flows : List (FlowKey × FlowStats)) :
    sumFlowPackets (dictUpd k (fun st => ⟨st.packets + 1, st.bytes + n⟩) ⟨0, 0⟩ flows) =
      sumFlowPackets flows + 1 := by
  induction flows with
  | nil => simp [dictUpd, sumFlowPackets]
  | cons kv rest ih =>
    by_cases h : kv.1 = k
    · simp [dictUpd, sumFlowPackets, h]
      omega
    · simp only [dictUpd, h, if_false, sumFlowPackets, List.map_cons, List.sum_cons] at ih ⊢
      omega

theorem sumFlowBytes_dictUpd (k : FlowKey) (n : Nat) (flows : List (FlowKey × FlowStats)) :
    sumFlowBytes (dictUpd k (fun st => ⟨st.packets + 1, st.bytes + n⟩) ⟨0, 0⟩ flows) =
      sumFlowBytes flows + n := by
  induction flows with
  | nil => simp [dictUpd, sumFlowBytes]
  | cons kv rest ih =>
    by_cases h : kv.1 = k
    · simp [dictUpd, sumFlowBytes, h]
      omega
    · simp only [dictUpd, h, if_false, sumFlowBytes, List.map_cons, List.sum_cons] at ih ⊢
      omega

theorem foldl_stepPkt_flow_sums (l : List Packet) (s : AggState) :
    sumFlowPackets ((l.foldl stepPkt s).flows) = sumFlowPackets s.flows + l.length ∧
    sumFlowBytes ((l.foldl stepPkt s).flows) = sumFlowBytes s.flows + (l.map Packet.len).sum := by
  induction l generalizing s with
  | nil => simp
  | cons p rest ih =>
    obtain ⟨ih1, ih2⟩ := ih (stepPkt s p)
    simp only [List.foldl_cons, List.length_cons, List.map_cons, List.sum_cons]
    rw [ih1, ih2, stepPkt_flows, sumFlowPackets_dictUpd, sumFlowBytes_dictUpd]
    omega

/-- C9 -- Each packet is attributed to exactly one flow entry: after the
pass, flow packet counts sum to the total packet count and flow byte counts
sum to the total byte count of the report. -/
theorem flow_conservation (l : List Packet) :
    sumFlowPackets (aggregate l).flows = (buildReport l).summary.packet_count ∧
    sumFlowBytes (aggregate l).flows = (buildReport l).summary.total_bytes := by
  obtain ⟨h1, h2⟩ := foldl_stepPkt_flow_sums l initAgg
  have e1 : (buildReport l).summary.packet_count = l.length := rfl
  have e2 : (buildReport l).summary.total_bytes = (l.map Packet.len).sum := rfl
  rw [e1, e2]
  constructor
  · simpa [aggregate, initAgg, sumFlowPackets] using h1
  · simpa [aggregate, initAgg, sumFlowBytes] using h2

/-! ## Capture bound lemmas -/

theorem iso_time_eq_map (o : Option Int) : iso_time o = o.map isoTimeStr := by
  cases o <;> rfl

/-- C4 -- `capture_start`/`capture_end` come from the first and last packet
of the input sequence (both absent on an empty capture), not from the
minimum/maximum timestamp: on the concrete out-of-order capture
`[pktLate, pktEarly]` the emitted bounds differ from the chronological
min/max. -/
theorem capture_bounds (l : List Packet) :
    (buildReport l).summary.capture_start = iso_time (l.head?.map Packet.time) ∧
    (buildReport l).summary.capture_end = iso_time (l.getLast?.map Packet.time) ∧
    (l = [] → (buildReport l).summary.capture_start = none ∧
      (buildReport l).summary.capture_end = none) ∧
    (∀ (p : Packet) (rest : List Packet), l = p :: rest →
      (buildReport l).summary.capture_start = some (isoTimeStr p.time)) ∧
    (∀ (l0 : List Packet) (p : Packet), l = l0 ++ [p] →
      (buildReport l).summary.capture_end = some (isoTimeStr p.time)) ∧
    (buildReport [pktLate, pktEarly]).summary.capture_start ≠
      iso_time (some (min pktLate.time pktEarly.time)) ∧
    (buildReport [pktLate, pktEarly]).summary.capture_end ≠
      iso_time (some (max pktLate.time pktEarly.time)) := by
  refine ⟨rfl, rfl, ?_, ?_, ?_, ?_, ?_⟩
  · rintro rfl
    exact ⟨rfl, rfl⟩
  · rintro p rest rfl
    rfl
  · rintro l0 p rfl
    have h : (buildReport (l0 ++ [p])).summary.capture_end =
        iso_time ((l0 ++ [p]).getLast?.map Packet.time) := rfl
    rw [h, List.getLast?_concat]
    rfl
  · decide
  · decide

/-- C4 witness: on the concrete out-of-order capture the bounds follow
sequence position. -/
theorem capture_bounds_witness :
    (buildReport [pktLate, pktEarly]).summary.capture_start = some (isoTimeStr pktLate.time) ∧
    (buildReport [pktLate, pktEarly]).summary.capture_end = some (isoTimeStr pktEarly.time) ∧
    (buildReport ([] : List Packet)).summary.capture_start = none := by
  have h := capture_bounds [pktLate, pktEarly]
  have h0 := capture_bounds ([] : List Packet)
  exact ⟨h.2.2.2.1 pktLate [pktEarly] rfl, h.2.2.2.2.1 [pktLate] pktEarly rfl,
    (h0.2.2.1 rfl).1⟩

/-- C10 -- Serialized capture bounds: when the capture is non-empty both
bounds are the UTC ISO-8601 rendering (via `isoTimeStr`, the embedding of
`datetime.fromtimestamp(_, timezone.utc).isoformat()`) of the first/last
packet's seconds-since-epoch timestamp; on an empty capture both are null;
the rendered value is always the ISO string (which contains the ISO date
separator), never the raw numeric timestamp. -/
theorem capture_times_iso (l : List Packet) :
    (buildReport l).summary.capture_start = (l.head?.map Packet.time).map isoTimeStr ∧
    (buildReport l).summary.capture_end = (l.getLast?.map Packet.time).map isoTimeStr ∧
    ((buildReport l).summary.capture_start = none ↔ l = []) ∧
    ((buildReport l).summary.capture_end = none ↔ l = []) ∧
    (∀ ts : Int, 'T' ∈ (isoTimeStr ts).data) ∧
    isoTimeStr 0 = "1970-01-01T00:00:00+00:00" ∧
    isoTimeStr 1728000000 = "2024-10-04T00:00:00+00:00" := by
  have e1 : (buildReport l).summary.capture_start = iso_time (l.head?.map Packet.time) := rfl
  have e2 : (buildReport l).summary.capture_end = iso_time (l.getLast?.map Packet.time) := rfl
  refine ⟨by rw [e1, iso_time_eq_map], by rw [e2, iso_time_eq_map], ?_, ?_, ?_, by decide,
    by decide⟩
  · rw [e1, iso_time_eq_map]
    simp
  · rw [e2, iso_time_eq_map]
    simp
  · intro ts
    simp [isoTimeStr, String.data_append]

/-- C10 witness: concrete rendering for a one-packet capture at timestamp
7 and nullity on the empty capture. -/
theorem capture_times_iso_witness :
    (buildReport [pktOther]).summary.capture_start = some (isoTimeStr 7) ∧
    (buildReport ([] : List Packet)).summary.capture_end = none ∧
    'T' ∈ (isoTimeStr 7).data := by
  have h := capture_times_iso [pktOther]
  have h0 := capture_times_iso ([] : List Packet)
  exact ⟨h.1, h0.2.2.2.1.mpr rfl, h.2.2.2.2.1 7⟩

/-! ## Ranking lemmas -/

theorem sortedByDesc_sorted {α : Type} (f : α → Nat) (l : List α) :
    (sortedByDesc f l).Sorted (byKeyGE f) :=
  List.sorted_insertionSort (byKeyGE f) l

theorem sortedByDesc_perm {α : Type} (f : α → Nat) (l : List α) :
    List.Perm (sortedByDesc f l) l :=
  List.perm_insertionSort (byKeyGE f) l

theorem sortedByDesc_stable {α : Type} (f : α → Nat) {a b : α} {l : List α}
    (h : List.Sublist [a, b] l) (hf : f a = f b) : List.Sublist [a, b] (sortedByDesc f l) :=
  List.pair_sublist_insertionSort (show byKeyGE f a b from le_of_eq hf.symm) h

theorem sortedByDesc_take_superset {α : Type} (f : α → Nat) (l : List α) (k : Nat) {x y : α}
    (hx : x ∈ l) (hnx : x ∉ (sortedByDesc f l).take k) (hy : y ∈ (sortedByDesc f l).take k) :
    f x ≤ f y := by
  have hxs : x ∈ sortedByDesc f l := (sortedByDesc_perm f l).mem_iff.mpr hx
  have hsplit : x ∈ (sortedByDesc f l).take k ++ (sortedByDesc f l).drop k := by
    rw [List.take_append_drop]
    exact hxs
  have hxd : x ∈ (sortedByDesc f l).drop k := by
    rcases List.mem_append.mp hsplit with h | h
    · exact absurd h hnx
    · exact h
  exact (sortedByDesc_sorted f l).rel_of_mem_take_of_mem_drop hy hxd

/-- C3 -- The emitted top-talkers and top-flows lists are the stable
descending-by-bytes sorts of the encounter-ordered tables, truncated to 12:
each has length at most 12, is sorted by descending byte total, the sort
is a permutation of the table, ties keep their encounter order, and no
entry left out of the emitted list has a byte total exceeding any entry
inside it. -/
theorem top_lists_ranked (l : List Packet) :
    top_talkers (aggregate l).talkers =
      (sortedByDesc (fun kv => kv.2) (aggregate l).talkers).take 12 ∧
    (top_talkers (aggregate l).talkers).length ≤ 12 ∧
    (top_talkers (aggregate l).talkers).Sorted (fun a b => b.2 ≤ a.2) ∧
    List.Perm (sortedByDesc (fun kv => kv.2) (aggregate l).talkers) (aggregate l).talkers ∧
    (∀ a b : String × Nat, List.Sublist [a, b] (aggregate l).talkers → a.2 = b.2 →
      List.Sublist [a, b] (sortedByDesc (fun kv => kv.2) (aggregate l).talkers)) ∧
    (∀ x ∈ (aggregate l).talkers, x ∉ top_talkers (aggregate l).talkers →
      ∀ y ∈ top_talkers (aggregate l).talkers, x.2 ≤ y.2) ∧
    top_flows (aggregate l).flows =
      (sortedByDesc (fun kv => kv.2.bytes) (aggregate l).flows).take 12 ∧
    (top_flows (aggregate l).flows).length ≤ 12 ∧
    (top_flows (aggregate l).flows).Sorted (fun a b => b.2.bytes ≤ a.2.bytes) ∧
    List.Perm (sortedByDesc (fun kv => kv.2.bytes) (aggregate l).flows) (aggregate l).flows ∧
    (∀ a b : FlowKey × FlowStats, List.Sublist [a, b] (aggregate l).flows →
      a.2.bytes = b.2.bytes →
      List.Sublist [a, b] (sortedByDesc (fun kv => kv.2.bytes) (aggregate l).flows)) ∧
    (∀ x ∈ (aggregate l).flows, x ∉ top_flows (aggregate l).flows →
      ∀ y ∈ top_flows (aggregate l).flows, x.2.bytes ≤ y.2.bytes) := by
  refine ⟨rfl, ?_, ?_, sortedByDesc_perm _ _, ?_, ?_, rfl, ?_, ?_, sortedByDesc_perm _ _,
    ?_, ?_⟩
  · rw [show top_talkers (aggregate l).talkers =
      (sortedByDesc (fun kv => kv.2) (aggregate l).talkers).take 12 from rfl,
      List.length_take]
    exact min_le_left _ _
  · have hs := sortedByDesc_sorted (fun kv : String × Nat => kv.2) (aggregate l).talkers
    exact List.Pairwise.sublist (List.take_sublist _ _) hs
  · exact fun a b hab hf => sortedByDesc_stable _ hab hf
  · exact fun x hx hnx y hy =>
      sortedByDesc_take_superset (fun kv : String × Nat => kv.2)
        (aggregate l).talkers 12 hx hnx hy
  · rw [show top_flows (aggregate l).flows =
      (sortedByDesc (fun kv => kv.2.bytes) (aggregate l).flows).take 12 from rfl,
      List.length_take]
    exact min_le_left _ _
  · have hs := sortedByDesc_sorted (fun kv : FlowKey × FlowStats => kv.2.bytes)
      (aggregate l).flows
    exact List.Pairwise.sublist (List.take_sublist _ _) hs
  · exact fun a b hab hf => sortedByDesc_stable _ hab hf
  · exact fun x hx hnx y hy =>
      sortedByDesc_take_superset (fun kv : FlowKey × FlowStats => kv.2.bytes)
        (aggregate l).flows 12 hx hnx hy

/-- C3 witness: on a capture giving two equal-byte talkers, the emitted
list is within the length bound and the tie keeps encounter order in the
sorted list. -/
theorem top_lists_ranked_witness :
    (top_talkers (aggregate [pktEq1, pktEq2]).talkers).length ≤ 12 ∧
    List.Sublist [(("10.0.0.5" : String), (70 : Nat)), ("10.0.0.7", 70)]
      (sortedByDesc (fun kv => kv.2) (aggregate [pktEq1, pktEq2]).talkers) := by
  have h := top_lists_ranked [pktEq1, pktEq2]
  have e : (aggregate [pktEq1, pktEq2]).talkers =
      [("10.0.0.5", 70), ("10.0.0.7", 70)] := by decide
  refine ⟨h.2.1, h.2.2.2.2.1 ("10.0.0.5", 70) ("10.0.0.7", 70) ?_ rfl⟩
  rw [e]

/-! ## Per-packet update lemmas -/

theorem lookupD_countsFold (tags : List String) (c : List (String × Nat)) (t : String) :
    lookupD (tags.foldl (fun c tag => dictUpd tag (· + 1) 0 c) c) t 0 =
      lookupD c t 0 + List.count t tags := by
  induction tags generalizing c with
  | nil => simp
  | cons tag rest ih =>
    simp only [List.foldl_cons]
    rw [ih]
    by_cases h : tag = t
    · subst h
      rw [lookupD_dictUpd_self, List.count_cons_self]
      omega
    · rw [lookupD_dictUpd_ne (Ne.symm h), List.count_cons_of_ne (Ne.symm h)]

theorem protocol_tags_nodup (p : Packet) : (protocol_tags p).Nodup := by
  obtain ⟨tm, ln, a, b, c, d, e, f, s1, s2, s3, s4⟩ := p
  cases a <;> cases b <;> cases c <;> cases d <;> cases e <;> cases f <;>
    simp [protocol_tags]

theorem src_some_props (p : Packet) (hwf : p.wf) (a : String)
    (h : (packet_src_dst p).1 = some a) :
    strTruthy (packet_src_dst p).1 = true ∧ orUnknown (packet_src_dst p).1 = a := by
  obtain ⟨h1, h2, h3, h4⟩ := hwf
  unfold packet_src_dst at h ⊢
  split_ifs at h ⊢ <;> simp_all [strTruthy, orUnknown]

theorem dst_some_props (p : Packet) (hwf : p.wf) (b : String)
    (h : (packet_src_dst p).2 = some b) :
    strTruthy (packet_src_dst p).2 = true ∧ orUnknown (packet_src_dst p).2 = b := by
  obtain ⟨h1, h2, h3, h4⟩ := hwf
  unfold packet_src_dst at h ⊢
  split_ifs at h ⊢ <;> simp_all [strTruthy, orUnknown]

theorem src_dst_none_or_some (p : Packet) :
    ((packet_src_dst p).1 = none ∧ (packet_src_dst p).2 = none) ∨
    (∃ a b, (packet_src_dst p).1 = some a ∧ (packet_src_dst p).2 = some b) := by
  unfold packet_src_dst
  split_ifs <;> simp

/-- C1 -- One pass step, per appended packet: the packet counter grows by 1
and the byte counter by the packet's length; every tag of its tag set gains
frequency 1 and other tags are untouched; a present source host gains the
packet's length in the talker table and joins the host set; a present
destination joins the host set but no talker entry other than the source's
changes; the packet's flow entry gains one packet and the packet's length
in bytes (created from zero counters when absent) and all other flow
entries are untouched. -/
theorem aggregate_per_packet (l : List Packet) (p : Packet) (hwf : p.wf) :
    (buildReport (l ++ [p])).summary.packet_count =
      (buildReport l).summary.packet_count + 1 ∧
    (buildReport (l ++ [p])).summary.total_bytes =
      (buildReport l).summary.total_bytes + p.len ∧
    (∀ tag ∈ protocol_tags p,
      lookupD (aggregate (l ++ [p])).protocol_counts tag 0 =
        lookupD (aggregate l).protocol_counts tag 0 + 1) ∧
    (∀ tag, tag ∉ protocol_tags p →
      lookupD (aggregate (l ++ [p])).protocol_counts tag 0 =
        lookupD (aggregate l).protocol_counts tag 0) ∧
    (∀ a, (packet_src_dst p).1 = some a →
      lookupD (aggregate (l ++ [p])).talkers a 0 =
        lookupD (aggregate l).talkers a 0 + p.len ∧
      a ∈ (aggregate (l ++ [p])).unique_hosts) ∧
    (∀ h : String, (packet_src_dst p).1 ≠ some h →
      lookupD (aggregate (l ++ [p])).talkers h 0 = lookupD (aggregate l).talkers h 0) ∧
    (∀ b, (packet_src_dst p).2 = some b → b ∈ (aggregate (l ++ [p])).unique_hosts) ∧
    (aggregate (l ++ [p])).unique_hosts =
      (aggregate l).unique_hosts ∪ (packet_src_dst p).1.toFinset ∪
        (packet_src_dst p).2.toFinset ∧
    lookupD (aggregate (l ++ [p])).flows (flowKeyOf p) ⟨0, 0⟩ =
      ⟨(lookupD (aggregate l).flows (flowKeyOf p) ⟨0, 0⟩).packets + 1,
        (lookupD (aggregate l).flows (flowKeyOf p) ⟨0, 0⟩).bytes + p.len⟩ ∧
    (∀ k : FlowKey, k ≠ flowKeyOf p →
      lookupD (aggregate (l ++ [p])).flows k ⟨0, 0⟩ =
        lookupD (aggregate l).flows k ⟨0, 0⟩) := by
  have epc : ∀ m : List Packet, (buildReport m).summary.packet_count = m.length :=
    fun _ => rfl
  have etb : ∀ m : List Packet,
      (buildReport m).summary.total_bytes = (m.map Packet.len).sum := fun _ => rfl
  have estep := aggregate_append_one l p
  refine ⟨?_, ?_, ?_, ?_, ?_, ?_, ?_, ?_, ?_, ?_⟩
  · rw [epc, epc]
    simp
  · rw [etb, etb]
    simp
  · intro tag htag
    rw [estep, stepPkt_protocol_counts, lookupD_countsFold,
      List.count_eq_one_of_mem (protocol_tags_nodup p) htag]
  · intro tag htag
    rw [estep, stepPkt_protocol_counts, lookupD_countsFold,
      List.count_eq_zero_of_not_mem htag]
    omega
  · intro a ha
    obtain ⟨ht, ho⟩ := src_some_props p hwf a ha
    constructor
    · rw [estep, stepPkt_talkers, ht, if_pos rfl, ho, lookupD_dictUpd_self]
    · rw [estep, stepPkt_unique_hosts]
      split_ifs <;> simp_all
  · intro h hne
    rw [estep, stepPkt_talkers]
    rcases hsrc : (packet_src_dst p).1 with _ | a
    · simp [strTruthy]
    · obtain ⟨ht, ho⟩ := src_some_props p hwf a hsrc
      have hne2 : h ≠ a := fun e => hne (by rw [hsrc, e])
      rw [hsrc] at ht ho
      rw [ht, if_pos rfl, ho, lookupD_dictUpd_ne hne2]
  · intro b hb
    obtain ⟨ht, ho⟩ := dst_some_props p hwf b hb
    rw [estep, stepPkt_unique_hosts, ht, if_pos rfl, ho]
    exact Finset.mem_insert_self b _
  · rw [estep, stepPkt_unique_hosts]
    rcases src_dst_none_or_some p with ⟨hs, hd⟩ | ⟨a, b, hs, hd⟩
    · rw [hs, hd]
      simp [strTruthy]
    · obtain ⟨hts, hos⟩ := src_some_props p hwf a hs
      obtain ⟨htd, hod⟩ := dst_some_props p hwf b hd
      rw [hts, htd, if_pos rfl, if_pos rfl, hos, hod, hs, hd]
      ext x
      simp [Finset.mem_insert, Finset.mem_union]
      tauto
  · rw [estep, stepPkt_flows, lookupD_dictUpd_self]
  · intro k hk
    rw [estep, stepPkt_flows, lookupD_dictUpd_ne hk]

/-- C1 witness: appending a concrete packet to a one-packet capture
performs exactly the described updates on the counters it touches. -/
theorem aggregate_per_packet_witness :
    (buildReport [pktEq1, pktEq2]).summary.packet_count =
      (buildReport [pktEq1]).summary.packet_count + 1 ∧
    lookupD (aggregate [pktEq1, pktEq2]).talkers "10.0.0.7" 0 =
      lookupD (aggregate [pktEq1]).talkers "10.0.0.7" 0 + pktEq2.len ∧
    lookupD (aggregate [pktEq1, pktEq2]).protocol_counts "TCP" 0 =
      lookupD (aggregate [pktEq1]).protocol_counts "TCP" 0 + 1 := by
  have h := aggregate_per_packet [pktEq1] pktEq2 (by refine ⟨?_, ?_, ?_, ?_⟩ <;> decide)
  exact ⟨h.1, (h.2.2.2.2.1 "10.0.0.7" rfl).1, h.2.2.1 "TCP" (by decide)⟩
